import Mathlib

/-!
Shallow embedding of the fbksd-server backend (Rust) for verification of its
natural-language specification.

The embedding covers:
* the JSON registry state machine of `fbksd-core/src/registry.rs`
  (techniques, workspaces, publication status transitions);
* the SQLite task queue of `fbksd-core/src/db.rs`
  (`push_run_task`, `pop_next_task`, task kinds);
* the consumer main loop of `fbksd-consumer/src/main.rs`;
* the RPC handlers `can_run` and `publish_private` of
  `fbksd-server/src/main.rs` together with `page::copy_public_page`.

External effects that cannot run inside a pure model (current wall-clock time,
v4 uuid minting, the SQLite rowid allocator, external command results) are
passed in as explicit parameters; each such spot is noted next to the
definition it concerns.
-/

namespace Fbksd

/-! ## Generic list helpers

`updateFirst` is the functional rendering of obtaining a `&mut` reference via
`iter_mut().find(p)` and mutating the found element in place; `eraseFirst`
renders `Vec::remove` at the index of the first match.
-/

def updateFirst (p : α → Bool) (f : α → α) : List α → List α
  | [] => []
  | x :: xs => if p x then f x :: xs else x :: updateFirst p f xs

def eraseFirst (p : α → Bool) : List α → List α
  | [] => []
  | x :: xs => if p x then xs else x :: eraseFirst p xs

/-! ## Registry data model (`fbksd-core/src/registry.rs`) -/

/-- Embeds `registry::TechniqueType`. -/
inductive TechniqueType
  | DENOISER
  | SAMPLER
deriving DecidableEq

/-- Embeds `TechniqueType::as_str`. -/
def TechniqueType.as_str : TechniqueType → String
  | .DENOISER => "denoisers"
  | .SAMPLER => "samplers"

/-- Embeds `registry::Error`. -/
inductive RegError
  | NotRegistered
  | InvalidInfoFile
  | AlreadyPublished
  | MaxWorkspacesExceeded
  | Unspecified
deriving DecidableEq

/-- Embeds `ci::ProjectInfo` as consumed by `registry.rs`, which keys its maps by a
string id (`map.insert(info.id.clone(), ...)` into `HashMap<String, Entry>`). -/
structure ProjectInfo where
  id : String
  commit_sha : String
  user_email : String
  docker_img : String
deriving DecidableEq

/-- Embeds `registry::Version` (entry of the `versions` list of an info.json file). -/
structure Version where
  name : String
  comment : String
  executable : String
deriving DecidableEq

/-- Embeds `registry::Technique` (the parsed info.json manifest). -/
structure Technique where
  technique_type : TechniqueType
  short_name : String
  full_name : String
  comment : String
  citation : String
  versions : List Version
deriving DecidableEq

/-- Embeds `registry::WorkspaceStatus`. `DateTime<Utc>` timestamps are embedded as
`Nat` instants. `Finished` carries the finish time; `Published` carries
(finish time, publication time) exactly as in the source. -/
inductive WorkspaceStatus
  | New
  | Finished (finishedAt : Nat)
  | Published (finishedAt publishedAt : Nat)
deriving DecidableEq

/-- Embeds `registry::Workspace`. -/
structure Workspace where
  uuid : String
  commit_sha : String
  docker_image : String
  status : WorkspaceStatus
  creation_time : Nat
deriving DecidableEq

/-- Embeds `registry::Entry`: the per-technique record (last registered name plus the
workspace list). -/
structure Entry where
  name : String
  workspaces : List Workspace
deriving DecidableEq

/-- Embeds `registry::Registry`. The two `HashMap<String, Entry>` maps are embedded as
association lists; all source accesses go through `get`/`get_mut`/`insert`/
`iter().find`, which the association-list operations below mirror with
first-match semantics. -/
structure Registry where
  denoisers : List (String × Entry)
  samplers : List (String × Entry)
deriving DecidableEq

/-- Embeds `HashMap::get` on an embedded map: first pair whose key matches. -/
def findPair (m : List (String × Entry)) (id : String) : Option (String × Entry) :=
  m.find? (fun p => p.1 == id)

/-- Functional update of the entry stored under `id` (the `get_mut` pattern). -/
def updateEntry (m : List (String × Entry)) (id : String) (f : Entry → Entry) :
    List (String × Entry) :=
  updateFirst (fun p => p.1 == id) (fun p => (p.1, f p.2)) m

/-- Embeds `HashMap::insert`: replaces the value under an existing key, otherwise adds
the binding. -/
def insertEntry (m : List (String × Entry)) (id : String) (e : Entry) :
    List (String × Entry) :=
  if (findPair m id).isSome then updateEntry m id (fun _ => e) else m ++ [(id, e)]

/-- Embeds `Registry::get_entry`: look in `denoisers` first, then in `samplers`. -/
def Registry.get_entry (r : Registry) (id : String) : Option (TechniqueType × Entry) :=
  match findPair r.denoisers id with
  | some p => some (.DENOISER, p.2)
  | none =>
    match findPair r.samplers id with
    | some p => some (.SAMPLER, p.2)
    | none => none

/-- Embeds `Registry::technique_type`. -/
def Registry.technique_type (r : Registry) (id : String) : Option TechniqueType :=
  (r.get_entry id).map (fun p => p.1)

/-- The mutation counterpart of `get_entry_mut`: apply `f` to the entry of `id`
in whichever map holds it (`denoisers` first). -/
def Registry.modifyEntry (r : Registry) (id : String) (f : Entry → Entry) : Registry :=
  if (findPair r.denoisers id).isSome then
    { r with denoisers := updateEntry r.denoisers id f }
  else
    { r with samplers := updateEntry r.samplers id f }

/-- The map of the given kind (`match tech.technique_type` in `register`). -/
def Registry.kindMap (r : Registry) : TechniqueType → List (String × Entry)
  | .DENOISER => r.denoisers
  | .SAMPLER => r.samplers

/-- Write back the map of the given kind. -/
def Registry.setKindMap (r : Registry) : TechniqueType → List (String × Entry) → Registry
  | .DENOISER, m => { r with denoisers := m }
  | .SAMPLER, m => { r with samplers := m }

/-- Embeds `Registry::register`. The versions checks, the search of the kind map for
an entry carrying the requested `short_name`, the rename when that entry is the
caller itself, the `InvalidInfoFile` rejection when it belongs to another id,
and the fresh insertion otherwise, follow `registry.rs` line by line.
`fs::create_dir_all` of the data directory is a filesystem effect outside the
registry state and is taken as succeeding. -/
def Registry.register (r : Registry) (info : ProjectInfo) (tech : Technique) :
    Except RegError Registry :=
  if tech.versions.length > 1 then
    .error .InvalidInfoFile
  else if tech.versions.length == 1 &&
      (tech.versions.headD ⟨"", "", ""⟩).name != "default" then
    .error .InvalidInfoFile
  else
    let m := r.kindMap tech.technique_type
    match m.find? (fun p => p.2.name == tech.short_name) with
    | some p =>
      if p.1 == info.id then
        .ok (r.setKindMap tech.technique_type
          (updateFirst (fun q => q.2.name == tech.short_name)
            (fun q => (q.1, { q.2 with name := tech.short_name })) m))
      else
        .error .InvalidInfoFile
    | none =>
      .ok (r.setKindMap tech.technique_type
        (insertEntry m info.id { name := tech.short_name, workspaces := [] }))

/-- Embeds `Registry::add_workspace`. `max_workspaces` stands for
`SystemConfig::load().max_num_workspaces`; `uuid` is the fresh v4 uuid the
source mints with `Uuid::new_v4()`; `now` is `Utc::now()`. The capacity guard
compares the length of the technique's whole workspace list. -/
def Registry.add_workspace (r : Registry) (max_workspaces : Nat) (info : ProjectInfo)
    (uuid : String) (now : Nat) : Except RegError (String × Registry) :=
  match r.get_entry info.id with
  | none => .error .NotRegistered
  | some p =>
    if p.2.workspaces.length ≥ max_workspaces then
      .error .MaxWorkspacesExceeded
    else
      let wp : Workspace :=
        { uuid := uuid
          commit_sha := info.commit_sha
          docker_image := info.docker_img
          status := .New
          creation_time := now }
      .ok (uuid, r.modifyEntry info.id
        (fun e => { e with workspaces := e.workspaces ++ [wp] }))

/-- Embeds `Registry::get_workspace_mut` (read half). -/
def Registry.get_workspace (r : Registry) (id uuid : String) : Option Workspace :=
  match r.get_entry id with
  | some p => p.2.workspaces.find? (fun w => w.uuid == uuid)
  | none => none

/-- Mutation through the `get_workspace_mut` reference: update the first
workspace of the entry whose uuid matches. -/
def Registry.setWorkspace (r : Registry) (id uuid : String) (f : Workspace → Workspace) :
    Registry :=
  r.modifyEntry id
    (fun e => { e with workspaces := updateFirst (fun w => w.uuid == uuid) f e.workspaces })

/-- Embeds `Registry::publish_workspace_private`: unconditionally sets the workspace
status to `Finished(now)`. -/
def Registry.publish_workspace_private (r : Registry) (info : ProjectInfo)
    (uuid : String) (now : Nat) : Except RegError Registry :=
  match r.get_workspace info.id uuid with
  | none => .error .Unspecified
  | some _ =>
    .ok (r.setWorkspace info.id uuid (fun w => { w with status := .Finished now }))

/-- Embeds `Registry::publish_workspace_public`: matches only on the status of the
workspace named by `uuid`; a `Finished(on)` workspace becomes
`Published(on, now)`. No other workspace of the technique is touched. -/
def Registry.publish_workspace_public (r : Registry) (info : ProjectInfo)
    (uuid : String) (now : Nat) : Except RegError Registry :=
  match r.get_workspace info.id uuid with
  | none => .error .Unspecified
  | some w =>
    match w.status with
    | .Finished finishedOn =>
      .ok (r.setWorkspace info.id uuid
        (fun w' => { w' with status := .Published finishedOn now }))
    | .New => .error .Unspecified
    | .Published _ _ => .error .AlreadyPublished

/-- Embeds `Entry::get_published_mut`'s predicate. -/
def isPublishedB (w : Workspace) : Bool :=
  match w.status with
  | .Published _ _ => true
  | _ => false

/-- Embeds `Registry::unpublish_workspace`: flips the first `Published` workspace of
the entry back to `Finished(finishedOn)` and returns (kind, its uuid). -/
def Registry.unpublish_workspace (r : Registry) (id : String) :
    Except RegError ((TechniqueType × String) × Registry) :=
  match r.get_entry id with
  | none => .error .Unspecified
  | some p =>
    match p.2.workspaces.find? isPublishedB with
    | some w =>
      match w.status with
      | .Published finishedOn _ =>
        let demote : Workspace → Workspace := fun w' => { w' with status := .Finished finishedOn }
        .ok ((p.1, w.uuid), r.modifyEntry id
          (fun e => { e with workspaces := updateFirst isPublishedB demote e.workspaces }))
      | _ => .error .Unspecified
    | none => .error .Unspecified

/-- Embeds `Registry::remove_workspace`: drops the first workspace of the entry whose
uuid matches. -/
def Registry.remove_workspace (r : Registry) (id uuid : String) :
    Except RegError Registry :=
  match r.get_entry id with
  | none => .error .Unspecified
  | some p =>
    match p.2.workspaces.find? (fun w => w.uuid == uuid) with
    | some _ =>
      .ok (r.modifyEntry id
        (fun e => { e with workspaces := eraseFirst (fun w => w.uuid == uuid) e.workspaces }))
    | none => .error .Unspecified

/-- Embeds `Registry::get_unpublished_wps`: uuids of the `Finished` workspaces of the
technique. The source `unwrap`s the entry lookup and panics on an unregistered
id; the panic is embedded as `none`. -/
def Registry.get_unpublished_wps (r : Registry) (id : String) : Option (List String) :=
  (r.get_entry id).map
    (fun p => p.2.workspaces.filterMap
      (fun w =>
        match w.status with
        | .Finished _ => some w.uuid
        | _ => none))

/-- Number of `Published` workspaces a technique currently holds (observer used
to state the single-Published invariant). -/
def Registry.countPublished (r : Registry) (id : String) : Nat :=
  match r.get_entry id with
  | some p => p.2.workspaces.countP (fun w => isPublishedB w)
  | none => 0

/-- Number of workspaces of the technique whose status is not `Published`
(the count the specification says `add_workspace` checks). -/
def Registry.unpublishedCount (r : Registry) (id : String) : Nat :=
  match r.get_entry id with
  | some p => p.2.workspaces.countP (fun w => !isPublishedB w)
  | none => 0

/-! ## Task queue data model (`fbksd-core/src/db.rs`) -/

/-- Embeds `error::Error` of the core library (used by `db.rs`). -/
inductive CoreError
  | NameAlreadyExists
  | NotRegistered
  | InvalidInfoFile
  | AlreadyPublished
  | MaxWorkspacesExceeded
  | Unspecified
deriving DecidableEq

/-- Embeds `ci::ProjectInfo` as consumed by `db.rs`, where `id` is the `i32` GitLab
project id. -/
structure DbProjectInfo where
  id : Int
  commit_sha : String
  user_email : String
  docker_img : String
deriving DecidableEq

/-- Embeds `db::TaskType`. The Rust discriminants are `Build = 0`,
`RunBenchmark = 1`, `PublishResults = 2`. -/
inductive TaskType
  | Build
  | RunBenchmark
  | PublishResults
deriving DecidableEq

/-- Embeds `TaskType as i32`. -/
def TaskType.toI32 : TaskType → Int
  | .Build => 0
  | .RunBenchmark => 1
  | .PublishResults => 2

/-- Embeds `Task::get_type`: decode the stored `i32` discriminant; anything that is
neither `Build` nor `PublishResults` decodes to `RunBenchmark`. -/
def taskTypeOfI32 (i : Int) : TaskType :=
  if i == TaskType.Build.toI32 then .Build
  else if i == TaskType.PublishResults.toI32 then .PublishResults
  else .RunBenchmark

/-- A row of the `techniques` table. -/
structure TechniqueRow where
  id : Int
  technique_type : Int
  short_name : String
  full_name : String
  citation : String
  comment : String
  num_workspaces : Int
deriving DecidableEq

/-- A row of the `normal_tasks` or `priority_tasks` table
(`db::NormalTask` / `db::PriorityTask`; both have the same columns).
`task_data` holds the optional opaque payload bytes (a uuid string). -/
structure TaskRow where
  id : Int
  technique_id : Int
  commit_sha : String
  docker_img : String
  task_type : Int
  task_data : Option String
deriving DecidableEq

/-- The SQLite database state as far as the queue operations read and write
it: the `techniques`, `priority_tasks` and `normal_tasks` tables. -/
structure DbState where
  techniques : List TechniqueRow
  priority_tasks : List TaskRow
  normal_tasks : List TaskRow
deriving DecidableEq

/-- Embeds `ORDER BY id LIMIT 1` over a task table: the row with the least `id`
(ids are the integer primary key, so they are distinct in any real table;
on equal ids the earlier row is kept). -/
def minById : List TaskRow → Option TaskRow
  | [] => none
  | t :: ts =>
    match minById ts with
    | none => some t
    | some u => if t.id ≤ u.id then some t else some u

/-- SQLite rowid allocation for an insert: one more than the largest id in the
table (fresh and larger than every existing id). -/
def nextTaskId (ts : List TaskRow) : Int :=
  (ts.foldl (fun a t => max a t.id) 0) + 1

/-- The `Box<dyn Task>` returned by `pop_next_task`: a row of either table. -/
inductive PoppedTask
  | priority (t : TaskRow)
  | normal (t : TaskRow)
deriving DecidableEq

/-- Kind of a popped task (`Task::get_type` through the trait object). -/
def PoppedTask.get_type : PoppedTask → TaskType
  | .priority t => taskTypeOfI32 t.task_type
  | .normal t => taskTypeOfI32 t.task_type

/-- Embeds `db::pop_next_task`. The transaction body issues only `load` (SELECT)
statements: first the lowest-id row of `priority_tasks`, then, if that table
is empty, the lowest-id row of `normal_tasks`. No statement deletes the
returned row (contrast `pop_next_message`, which does call `diesel::delete`),
so the database state after the transaction is the input state, returned here
alongside the result. -/
def pop_next_task (db : DbState) : Except CoreError (Option PoppedTask × DbState) :=
  match minById db.priority_tasks with
  | some t => .ok (some (.priority t), db)
  | none =>
    match minById db.normal_tasks with
    | some t => .ok (some (.normal t), db)
    | none => .ok (none, db)

/-- Embeds `db::push_build_task`: rejects when any priority task of the technique is
pending, otherwise inserts a `Build` row into `priority_tasks`. -/
def push_build_task (db : DbState) (info : DbProjectInfo) : Except CoreError DbState :=
  match db.techniques.find? (fun t => t.id == info.id) with
  | none => .error .NotRegistered
  | some tech =>
    if (db.priority_tasks.filter (fun t => t.technique_id == tech.id)).length > 0 then
      .error .Unspecified
    else
      let task : TaskRow :=
        { id := nextTaskId db.priority_tasks
          technique_id := info.id
          commit_sha := info.commit_sha
          docker_img := info.docker_img
          task_type := TaskType.Build.toI32
          task_data := none }
      .ok { db with priority_tasks := db.priority_tasks ++ [task] }

/-- Embeds `db::push_run_task`: rejects when any normal task of the technique is
pending, otherwise inserts a row into `normal_tasks`. The inserted row's
`task_type` is written exactly as the source writes it:
`task_type: TaskType::Build as i32`. -/
def push_run_task (db : DbState) (info : DbProjectInfo) : Except CoreError DbState :=
  match db.techniques.find? (fun t => t.id == info.id) with
  | none => .error .NotRegistered
  | some tech =>
    if (db.normal_tasks.filter (fun t => t.technique_id == tech.id)).length > 0 then
      .error .Unspecified
    else
      let task : TaskRow :=
        { id := nextTaskId db.normal_tasks
          technique_id := info.id
          commit_sha := info.commit_sha
          docker_img := info.docker_img
          task_type := TaskType.Build.toI32
          task_data := none }
      .ok { db with normal_tasks := db.normal_tasks ++ [task] }

/-- Embeds `db::push_publish_task`: like `push_run_task` but with
`task_type: TaskType::PublishResults as i32` and the uuid payload. -/
def push_publish_task (db : DbState) (info : DbProjectInfo) (uuid : String) :
    Except CoreError DbState :=
  match db.techniques.find? (fun t => t.id == info.id) with
  | none => .error .NotRegistered
  | some tech =>
    if (db.normal_tasks.filter (fun t => t.technique_id == tech.id)).length > 0 then
      .error .Unspecified
    else
      let task : TaskRow :=
        { id := nextTaskId db.normal_tasks
          technique_id := info.id
          commit_sha := info.commit_sha
          docker_img := info.docker_img
          task_type := TaskType.PublishResults.toI32
          task_data := some uuid }
      .ok { db with normal_tasks := db.normal_tasks ++ [task] }

/-! ## Consumer (`fbksd-consumer/src/main.rs`) -/

/-- The branch `execute_task` dispatches to. -/
inductive ConsumerBranch
  | buildBranch
  | runBranch
  | publishBranch
deriving DecidableEq

/-- Embeds `execute_task`: dispatch on `task.get_type()`. -/
def execute_task (t : PoppedTask) : ConsumerBranch :=
  match t.get_type with
  | .Build => .buildBranch
  | .RunBenchmark => .runBranch
  | .PublishResults => .publishBranch

/-- One iteration's outcome of `db::pop_next_task()` as observed by the
consumer loop. -/
inductive PollResult
  | popFailed
  | popEmpty
  | popTask (t : PoppedTask)
deriving DecidableEq

/-- The consumer `main` loop, driven by the sequence of poll outcomes it
observes. The source is
`loop { match db::pop_next_task() { Ok(Some(task)) => { execute_task(task); return; } _ => {} } sleep(10s) }`:
on `Ok(Some(task))` it executes the task and then `return`s from `main`,
ending the process. The value is the list of tasks the process executes
before `main` returns or the supplied polls run out. -/
def consumer_main : List PollResult → List PoppedTask
  | [] => []
  | .popTask t :: _ => [t]
  | .popFailed :: rest => consumer_main rest
  | .popEmpty :: rest => consumer_main rest

/-! ## RPC server handlers (`fbksd-server/src/main.rs`) and
`page::copy_public_page` (`fbksd-core/src/page.rs`) -/

/-- The `msgs::Error` variants the server handlers construct. -/
inductive ServerError
  | InvalidMessage
  | AlreadyPublished
  | MaxWorkspacesExceeded
  | Unspecified
deriving DecidableEq

/-- Embeds `server::can_run`: counts the technique's finished-unpublished workspaces
(`Registry::get_unpublished_wps(...).count()`, which panics — `none` here —
for an unregistered id), replies `Err(MaxWorkspacesExceeded)` when the count
has reached `max_num_workspaces`, and otherwise replies `Ok` with the count
rendered as a decimal string (`num.to_string()`). -/
def server_can_run (r : Registry) (max_num_workspaces : Nat) (info : ProjectInfo) :
    Option (Except ServerError String) :=
  match r.get_unpublished_wps info.id with
  | none => none
  | some wps =>
    if wps.length ≥ max_num_workspaces then
      some (.error .MaxWorkspacesExceeded)
    else
      some (.ok (toString wps.length))

/-- A filesystem abstraction: the set of directory paths that exist. -/
structure FileSystem where
  dirs : List String
deriving DecidableEq

/-- Embeds `Path::is_dir`. -/
def FileSystem.isDir (fs : FileSystem) (p : String) : Bool :=
  fs.dirs.contains p

/-- Embeds `paths::public_page_path()`, kept symbolic. -/
def public_page_path : String := "public"

/-- Embeds `page::copy_public_page`. If `dest` already exists as a directory the
function returns `false` before running any command, leaving the filesystem
untouched. Otherwise it stages the page (rsync of the template into `dest`,
scene and published-technique symlinks, creation of the data directory),
embedded abstractly as creating `dest`; failures of those external commands
are not modelled. -/
def copy_public_page (fs : FileSystem) (dest : String)
    (individual_links_group ignored_tech : String) : Bool × FileSystem :=
  if fs.isDir dest then
    (false, fs)
  else
    (true, { dirs := dest :: fs.dirs })

/-- Embeds `server::publish_private`. `techRead` is the outcome of
`Technique::read(install_path/info.json)`; `exportOk` that of
`wp::export_technique_images`; `permsOk` that of
`wp::set_public_page_permissions` (external effects passed in). The
technique-type lookup is `unwrap`ed in the source (panic on an unregistered
id, embedded as `none`). The private page directory is
`public_page_path/uuid`; when `copy_public_page` reports `false` the handler
replies `Err(Unspecified)`. On success the registry records the workspace as
finished and the reply payload is the empty string. -/
def publish_private (reg : Registry) (fs : FileSystem) (techRead : Option Technique)
    (proj : ProjectInfo) (uuid : String) (now : Nat) (exportOk permsOk : Bool) :
    Option (Except ServerError (String × FileSystem × Registry)) :=
  match reg.technique_type proj.id with
  | none => none
  | some group =>
    match techRead with
    | none => some (.error .Unspecified)
    | some tech =>
      let private_dir := public_page_path ++ "/" ++ uuid
      let staged := copy_public_page fs private_dir group.as_str tech.short_name
      if !staged.1 then
        some (.error .Unspecified)
      else if !exportOk then
        some (.error .Unspecified)
      else
        match reg.publish_workspace_private proj uuid now with
        | .error _ => some (.error .Unspecified)
        | .ok reg' =>
          if !permsOk then
            some (.error .Unspecified)
          else
            some (.ok ("", staged.2, reg'))

/-! ## Observers for `Except` results -/

def exceptOk {ε α : Type} : Except ε α → Option α
  | .ok a => some a
  | .error _ => none

def exceptErr {ε α : Type} : Except ε α → Option ε
  | .ok _ => none
  | .error e => some e

/-! ## Concrete fixtures -/

def proj1 : ProjectInfo :=
  { id := "1", commit_sha := "abc1234", user_email := "u@x", docker_img := "fbksd-ci" }

def tech1 : Technique :=
  { technique_type := .DENOISER, short_name := "Box", full_name := "Box filter"
    comment := "", citation := "", versions := [] }

def emptyRegistry : Registry := { denoisers := [], samplers := [] }

/-- Registry reached by: register technique 1; create workspaces u1 and u2
(capacity 3); mark both finished; publish u1 publicly; then publish u2
publicly as well. Every step of the chain succeeds in the source. -/
def c1_state : Except RegError Registry := do
  let r1 ← emptyRegistry.register proj1 tech1
  let (u1, r2) ← r1.add_workspace 3 proj1 "u1" 0
  let (u2, r3) ← r2.add_workspace 3 proj1 "u2" 1
  let r4 ← r3.publish_workspace_private proj1 u1 2
  let r5 ← r4.publish_workspace_public proj1 u1 3
  let r6 ← r5.publish_workspace_private proj1 u2 4
  r6.publish_workspace_public proj1 u2 5

def tech_row7 : TechniqueRow :=
  { id := 7, technique_type := 0, short_name := "Box", full_name := "Box filter"
    citation := "", comment := "", num_workspaces := 0 }

def run_task1 : TaskRow :=
  { id := 1, technique_id := 7, commit_sha := "abc1234", docker_img := "fbksd-ci"
    task_type := 1, task_data := none }

def c2_db : DbState :=
  { techniques := [tech_row7], priority_tasks := [], normal_tasks := [run_task1] }

def proj7 : DbProjectInfo :=
  { id := 7, commit_sha := "abc1234", user_email := "u@x", docker_img := "fbksd-ci" }

def c5_db : DbState :=
  { techniques := [tech_row7], priority_tasks := [], normal_tasks := [] }

def c8_task_a : PoppedTask :=
  .normal { id := 1, technique_id := 7, commit_sha := "a", docker_img := "i"
            task_type := 1, task_data := none }

def c8_task_b : PoppedTask :=
  .normal { id := 2, technique_id := 7, commit_sha := "b", docker_img := "i"
            task_type := 1, task_data := none }

def box_entry : Entry := { name := "Box", workspaces := [] }

def reg_with_box : Registry := { denoisers := [("1", box_entry)], samplers := [] }

def proj2 : ProjectInfo :=
  { id := "2", commit_sha := "def5678", user_email := "v@x", docker_img := "fbksd-ci" }

def tech_box_denoiser : Technique :=
  { technique_type := .DENOISER, short_name := "Box", full_name := "Other box"
    comment := "", citation := "", versions := [] }

def tech_box_sampler : Technique :=
  { technique_type := .SAMPLER, short_name := "Box", full_name := "Sampler box"
    comment := "", citation := "", versions := [] }

/-- Registry reached by: register technique 1 with capacity MAX_WS = 2; create
workspaces u1 and u2; mark u1 finished; publish u1 publicly. -/
def c4_state : Except RegError Registry := do
  let r1 ← emptyRegistry.register proj1 tech1
  let (u1, r2) ← r1.add_workspace 2 proj1 "u1" 0
  let (_, r3) ← r2.add_workspace 2 proj1 "u2" 1
  let r4 ← r3.publish_workspace_private proj1 u1 2
  r4.publish_workspace_public proj1 u1 3

/-! ## C1: the single-Published invariant -/

/-- C1. The claim states that `publish_workspace_public` demotes the
technique's previously-Published workspace so that at most one workspace per
technique is ever `Published`. Evaluating the code at the failing input
refutes this: after registering a technique, finishing two workspaces and
publishing both through `publish_workspace_public` (every call returning
`Ok`), the technique holds two `Published` workspaces — the second publish
neither demoted the first one nor errored. -/
theorem c1_two_workspaces_published :
    (exceptOk c1_state).map (fun r => r.countPublished "1") = some 2 := by decide

/-! ## C2: dequeueing is not at-most-once -/

/-- C2. The claim states that `pop_next_task` deletes the returned row from
its queue table inside the dequeue transaction. Evaluating the code at the
failing input refutes this: popping from a queue holding exactly one normal
task returns that task together with an unchanged database — the row is still
in `normal_tasks`, so the very same pop on the resulting state returns the
same task again. -/
theorem c2_pop_leaves_row_in_table :
    pop_next_task c2_db = .ok (some (.normal run_task1), c2_db) ∧
    c2_db.normal_tasks = [run_task1] ∧
    pop_next_task c2_db = pop_next_task c2_db := by
  exact ⟨rfl, rfl, rfl⟩

/-! ## C5: the task kind inserted by push_run_task -/

/-- C5. The claim states that `push_run_task` inserts a task of kind
`RunBenchmark`, so the consumer dispatches to the run-benchmark branch.
Evaluating the code at the failing input refutes this: for a registered
technique with an empty normal queue, the row `push_run_task` inserts carries
`task_type = TaskType::Build as i32`, which decodes to `Build`, and
`execute_task` dispatches it to the build branch. -/
theorem c5_push_run_inserts_build :
    (exceptOk (push_run_task c5_db proj7)).map
        (fun db => db.normal_tasks.map
          (fun t => (taskTypeOfI32 t.task_type, execute_task (.normal t))))
      = some [(TaskType.Build, ConsumerBranch.buildBranch)] := by decide

/-! ## C8: the consumer terminates after one task -/

/-- C8. The claim states that the consumer keeps polling after completing a
task and never terminates of its own accord. Evaluating the loop at the
failing input refutes this: offered a poll sequence in which two tasks become
available one after the other, the process executes only the first task and
then returns from `main` — the second available task is never polled. -/
theorem c8_consumer_stops_after_first_task :
    consumer_main [.popEmpty, .popTask c8_task_a, .popTask c8_task_b] = [c8_task_a] := by
  decide

/-! ## C3: strict priority, FIFO within a class -/

theorem minById_eq_none_iff (l : List TaskRow) : minById l = none ↔ l = [] := by
  cases l with
  | nil => simp [minById]
  | cons t ts =>
    constructor
    · intro h
      simp only [minById] at h
      cases hm : minById ts with
      | none => rw [hm] at h; exact absurd h (by simp)
      | some u => rw [hm] at h; by_cases hle : t.id ≤ u.id <;> simp [hle] at h
    · intro h; exact absurd h (by simp)

theorem minById_mem {l : List TaskRow} {t : TaskRow} (h : minById l = some t) : t ∈ l := by
  induction l with
  | nil => simp [minById] at h
  | cons x xs ih =>
    simp only [minById] at h
    cases hm : minById xs with
    | none =>
      rw [hm, Option.some.injEq] at h
      subst h
      exact List.mem_cons_self x xs
    | some u =>
      rw [hm] at h
      dsimp only at h
      by_cases hle : x.id ≤ u.id
      · rw [if_pos hle, Option.some.injEq] at h
        subst h
        exact List.mem_cons_self x xs
      · rw [if_neg hle, Option.some.injEq] at h
        subst h
        exact List.mem_cons_of_mem x (ih hm)

theorem minById_le {l : List TaskRow} : ∀ {t : TaskRow}, minById l = some t →
    ∀ u ∈ l, t.id ≤ u.id := by
  induction l with
  | nil => intro t h; simp [minById] at h
  | cons x xs ih =>
    intro t h
    simp only [minById] at h
    cases hm : minById xs with
    | none =>
      rw [hm, Option.some.injEq] at h
      subst h
      have hxs : xs = [] := (minById_eq_none_iff xs).mp hm
      subst hxs
      intro u hu
      rcases List.mem_singleton.mp hu with rfl
      exact le_refl _
    | some v =>
      rw [hm] at h
      dsimp only at h
      intro u hu
      by_cases hle : x.id ≤ v.id
      · rw [if_pos hle, Option.some.injEq] at h
        subst h
        rcases List.mem_cons.mp hu with hux | hu'
        · rw [hux]
        · exact le_trans hle (ih hm u hu')
      · rw [if_neg hle, Option.some.injEq] at h
        subst h
        rcases List.mem_cons.mp hu with hux | hu'
        · rw [hux]
          exact le_of_not_le hle
        · exact ih hm u hu'

/-- C3. For every queue state, `pop_next_task` returns a lowest-id task of the
priority table when that table is non-empty; otherwise a lowest-id task of the
normal table when that one is non-empty; otherwise no task — strict priority
of the priority table over the normal one and increasing-id order within each
table, with the database state passed through unchanged. -/
theorem c3_pop_next_task_priority_fifo (db : DbState) :
    (db.priority_tasks ≠ [] →
      ∃ t, pop_next_task db = .ok (some (.priority t), db) ∧ t ∈ db.priority_tasks ∧
        ∀ u ∈ db.priority_tasks, t.id ≤ u.id) ∧
    (db.priority_tasks = [] → db.normal_tasks ≠ [] →
      ∃ t, pop_next_task db = .ok (some (.normal t), db) ∧ t ∈ db.normal_tasks ∧
        ∀ u ∈ db.normal_tasks, t.id ≤ u.id) ∧
    (db.priority_tasks = [] → db.normal_tasks = [] → pop_next_task db = .ok (none, db)) := by
  refine ⟨?_, ?_, ?_⟩
  · intro hne
    cases hp : minById db.priority_tasks with
    | none => exact absurd ((minById_eq_none_iff _).mp hp) hne
    | some t =>
      refine ⟨t, ?_, minById_mem hp, minById_le hp⟩
      simp [pop_next_task, hp]
  · intro hp hne
    have hpm : minById db.priority_tasks = none := (minById_eq_none_iff _).mpr hp
    cases hn : minById db.normal_tasks with
    | none => exact absurd ((minById_eq_none_iff _).mp hn) hne
    | some t =>
      refine ⟨t, ?_, minById_mem hn, minById_le hn⟩
      simp [pop_next_task, hpm, hn]
  · intro hp hn
    have hpm : minById db.priority_tasks = none := (minById_eq_none_iff _).mpr hp
    have hnm : minById db.normal_tasks = none := (minById_eq_none_iff _).mpr hn
    simp [pop_next_task, hpm, hnm]

def c3_db : DbState :=
  { techniques := [tech_row7]
    priority_tasks :=
      [ { id := 5, technique_id := 7, commit_sha := "e", docker_img := "i"
          task_type := 0, task_data := none },
        { id := 2, technique_id := 7, commit_sha := "c", docker_img := "i"
          task_type := 0, task_data := none } ]
    normal_tasks := [run_task1] }

/-- Witness for C3 at a concrete queue: with priority rows of ids 5 and 2 and
one normal row pending, the pop returns a priority task of minimal id. -/
theorem c3_pop_next_task_priority_fifo_witness :
    c3_db.priority_tasks ≠ [] ∧
    ∃ t, pop_next_task c3_db = .ok (some (.priority t), c3_db) ∧ t ∈ c3_db.priority_tasks ∧
      ∀ u ∈ c3_db.priority_tasks, t.id ≤ u.id :=
  ⟨by decide, (c3_pop_next_task_priority_fifo c3_db).1 (by decide)⟩

/-! ## Lemmas about the association-list and workspace-list updates -/

theorem updateFirst_eq_of_find?_none {p : α → Bool} {f : α → α} {l : List α}
    (h : l.find? p = none) : updateFirst p f l = l := by
  induction l with
  | nil => rfl
  | cons x xs ih =>
    by_cases hx : p x
    · rw [List.find?_cons_of_pos _ hx] at h
      exact absurd h (by simp)
    · rw [List.find?_cons_of_neg _ (by simpa using hx)] at h
      simp only [updateFirst, if_neg hx]
      rw [ih h]

theorem mem_updateFirst {p : α → Bool} {f : α → α} {l : List α} {y : α}
    (h : y ∈ updateFirst p f l) : y ∈ l ∨ ∃ x, l.find? p = some x ∧ y = f x := by
  induction l with
  | nil => simp [updateFirst] at h
  | cons x xs ih =>
    by_cases hx : p x
    · simp only [updateFirst, if_pos hx] at h
      rcases List.mem_cons.mp h with hy | hy
      · exact Or.inr ⟨x, List.find?_cons_of_pos _ hx, hy⟩
      · exact Or.inl (List.mem_cons_of_mem x hy)
    · simp only [updateFirst, if_neg hx] at h
      rcases List.mem_cons.mp h with hy | hy
      · exact Or.inl (hy ▸ List.mem_cons_self x xs)
      · rcases ih hy with h' | ⟨z, hz, hyz⟩
        · exact Or.inl (List.mem_cons_of_mem x h')
        · exact Or.inr ⟨z, by rw [List.find?_cons_of_neg _ (by simpa using hx)]; exact hz, hyz⟩

theorem length_updateFirst (p : α → Bool) (f : α → α) (l : List α) :
    (updateFirst p f l).length = l.length := by
  induction l with
  | nil => rfl
  | cons x xs ih =>
    by_cases hx : p x
    · simp [updateFirst, if_pos hx]
    · simp [updateFirst, if_neg hx, ih]

theorem length_eraseFirst_le (p : α → Bool) (l : List α) :
    (eraseFirst p l).length ≤ l.length := by
  induction l with
  | nil => exact le_refl _
  | cons x xs ih =>
    by_cases hx : p x
    · simp only [eraseFirst, if_pos hx, List.length_cons]
      exact Nat.le_succ _
    · simp only [eraseFirst, if_neg hx, List.length_cons]
      exact Nat.succ_le_succ ih

theorem findPair_updateEntry_self (m : List (String × Entry)) (id : String)
    (f : Entry → Entry) :
    findPair (updateEntry m id f) id = (findPair m id).map (fun p => (p.1, f p.2)) := by
  induction m with
  | nil => rfl
  | cons q rest ih =>
    by_cases hq : q.1 = id
    · have hqt : (q.1 == id) = true := beq_iff_eq.mpr hq
      simp only [updateEntry, updateFirst, findPair, List.find?, hqt, if_true]
      rfl
    · have hqf : (q.1 == id) = false := beq_eq_false_iff_ne.mpr hq
      simp only [updateEntry, updateFirst, findPair, List.find?, hqf, if_false]
      exact ih

theorem findPair_updateEntry_other (m : List (String × Entry)) (id : String)
    (f : Entry → Entry) {id' : String} (h : id' ≠ id) :
    findPair (updateEntry m id f) id' = findPair m id' := by
  induction m with
  | nil => rfl
  | cons q rest ih =>
    by_cases hq : q.1 = id
    · have hqt : (q.1 == id) = true := beq_iff_eq.mpr hq
      have hne : (q.1 == id') = false := by
        refine beq_eq_false_iff_ne.mpr ?_
        rw [hq]
        exact fun hc => h hc.symm
      simp only [updateEntry, updateFirst, findPair, List.find?, hqt, if_true, hne]
    · have hqf : (q.1 == id) = false := beq_eq_false_iff_ne.mpr hq
      simp only [updateEntry, updateFirst, findPair, List.find?, hqf, if_false]
      cases hq2 : (q.1 == id') with
      | true => simp only [List.find?, hq2]
      | false =>
        simp only [List.find?, hq2]
        exact ih

theorem get_entry_modifyEntry_self {r : Registry} {id : String} {ty : TechniqueType}
    {e : Entry} (f : Entry → Entry) (h : r.get_entry id = some (ty, e)) :
    (r.modifyEntry id f).get_entry id = some (ty, f e) := by
  cases hd : findPair r.denoisers id with
  | some p =>
    simp only [Registry.get_entry, hd] at h
    rw [Option.some.injEq, Prod.mk.injEq] at h
    obtain ⟨h1, h2⟩ := h
    subst h1
    subst h2
    have hup : findPair (updateEntry r.denoisers id f) id = some (p.1, f p.2) := by
      rw [findPair_updateEntry_self, hd]
      rfl
    simp only [Registry.modifyEntry, hd, Option.isSome_some, if_true, Registry.get_entry]
    rw [hup]
  | none =>
    cases hs : findPair r.samplers id with
    | some p =>
      simp only [Registry.get_entry, hd, hs] at h
      rw [Option.some.injEq, Prod.mk.injEq] at h
      obtain ⟨h1, h2⟩ := h
      subst h1
      subst h2
      have hup : findPair (updateEntry r.samplers id f) id = some (p.1, f p.2) := by
        rw [findPair_updateEntry_self, hs]
        rfl
      simp only [Registry.modifyEntry, hd, Option.isSome_none, Bool.false_eq_true, if_false,
        Registry.get_entry]
      rw [hup]
    | none =>
      simp only [Registry.get_entry, hd, hs] at h
      exact absurd h (by simp)

theorem find?_isPublishedB_updateFirst_mark (uuid : String) (fin now : Nat) :
    ∀ {ws : List Workspace} {w : Workspace},
      ws.find? (fun x => x.uuid == uuid) = some w →
      (∀ x ∈ ws, isPublishedB x = false) →
      (updateFirst (fun x => x.uuid == uuid)
          (fun x => { x with status := .Published fin now }) ws).find? isPublishedB
        = some { w with status := .Published fin now } := by
  intro ws
  induction ws with
  | nil => intro w h _; simp [List.find?] at h
  | cons x xs ih =>
    intro w h hnp
    by_cases hx : x.uuid = uuid
    · have hxt : (x.uuid == uuid) = true := beq_iff_eq.mpr hx
      simp only [List.find?, hxt] at h
      rw [Option.some.injEq] at h
      subst h
      simp only [updateFirst, hxt, if_true, List.find?, isPublishedB]
    · have hxf : (x.uuid == uuid) = false := beq_eq_false_iff_ne.mpr hx
      simp only [List.find?, hxf] at h
      have hpx : isPublishedB x = false := hnp x (List.mem_cons_self x xs)
      simp only [updateFirst, hxf, if_false, List.find?, hpx]
      exact ih h (fun y hy => hnp y (List.mem_cons_of_mem x hy))

theorem find?_uuid_after_demote (uuid : String) (fin now : Nat) :
    ∀ {ws : List Workspace} {w : Workspace},
      ws.find? (fun x => x.uuid == uuid) = some w →
      (∀ x ∈ ws, isPublishedB x = false) →
      (updateFirst isPublishedB (fun x => { x with status := .Finished fin })
          (updateFirst (fun x => x.uuid == uuid)
            (fun x => { x with status := .Published fin now }) ws)).find?
          (fun x => x.uuid == uuid)
        = some { w with status := .Finished fin } := by
  intro ws
  induction ws with
  | nil => intro w h _; simp [List.find?] at h
  | cons x xs ih =>
    intro w h hnp
    by_cases hx : x.uuid = uuid
    · have hxt : (x.uuid == uuid) = true := beq_iff_eq.mpr hx
      simp only [List.find?, hxt] at h
      rw [Option.some.injEq] at h
      subst h
      simp only [updateFirst, hxt, if_true, isPublishedB, List.find?]
    · have hxf : (x.uuid == uuid) = false := beq_eq_false_iff_ne.mpr hx
      simp only [List.find?, hxf] at h
      have hpx : isPublishedB x = false := hnp x (List.mem_cons_self x xs)
      simp only [updateFirst, hxf, if_false, hpx, List.find?]
      exact ih h (fun y hy => hnp y (List.mem_cons_of_mem x hy))

/-! ## C9: publish followed by unpublish -/

def cw1 : Workspace :=
  { uuid := "w1", commit_sha := "a", docker_image := "i"
    status := .Published 1 2, creation_time := 0 }

def cw2 : Workspace :=
  { uuid := "w2", commit_sha := "b", docker_image := "i"
    status := .Finished 3, creation_time := 0 }

def c9_reg : Registry :=
  { denoisers := [("1", { name := "Box", workspaces := [cw1, cw2] })], samplers := [] }

/-- C9 (counterexample). Quantified over every `Finished` workspace, the claim
fails: in a registry where technique 1 already holds the `Published` workspace
w1 and the `Finished` workspace w2, publishing w2 succeeds (leaving both
published, cf. the missing demotion) and the subsequent `unpublish_workspace`
flips w1 — the first `Published` workspace it finds — so it is w1's uuid that
is returned and w2 remains `Published` instead of returning to `Finished`. -/
theorem c9_roundtrip_counterexample :
    ((exceptOk (c9_reg.publish_workspace_public proj1 "w2" 5)).bind
        (fun r1 => (exceptOk (r1.unpublish_workspace "1")).map
          (fun pr => (pr.1.2, pr.2.get_workspace "1" "w2"))))
      = some ("w1", some { cw2 with status := .Published 3 5 }) := by decide

/-- C9 (amended). For every workspace in status `Finished` whose technique has
no `Published` workspace, applying `publish_workspace_public` and then
`unpublish_workspace` on its technique returns that workspace — the uuid the
unpublish reports is its uuid — to its original state: status `Finished` with
the pre-publication finish time and no publication time. -/
theorem c9_publish_unpublish_roundtrip (r : Registry) (info : ProjectInfo) (uuid : String)
    (fin now : Nat) (ty : TechniqueType) (e : Entry) (w : Workspace)
    (hentry : r.get_entry info.id = some (ty, e))
    (hfind : e.workspaces.find? (fun x => x.uuid == uuid) = some w)
    (hstat : w.status = .Finished fin)
    (hnopub : ∀ x ∈ e.workspaces, isPublishedB x = false) :
    ∃ r1 r2, r.publish_workspace_public info uuid now = .ok r1 ∧
      r1.unpublish_workspace info.id = .ok ((ty, w.uuid), r2) ∧
      r2.get_workspace info.id uuid = some w := by
  have hgw : r.get_workspace info.id uuid = some w := by
    simp only [Registry.get_workspace, hentry]
    exact hfind
  have hentry1 := get_entry_modifyEntry_self (fun e' => { e' with workspaces := updateFirst (fun x => x.uuid == uuid) (fun x => { x with status := WorkspaceStatus.Published fin now }) e'.workspaces }) hentry
  have hfind1 := find?_isPublishedB_updateFirst_mark uuid fin now hfind hnopub
  have hentry2 := get_entry_modifyEntry_self (fun e' => { e' with workspaces := updateFirst isPublishedB (fun x => { x with status := WorkspaceStatus.Finished fin }) e'.workspaces }) hentry1
  have hfind2 := find?_uuid_after_demote uuid fin now hfind hnopub
  have hw_eq : { w with status := WorkspaceStatus.Finished fin } = w := by
    rw [← hstat]
  refine ⟨r.modifyEntry info.id (fun e' => { e' with workspaces := updateFirst (fun x => x.uuid == uuid) (fun x => { x with status := WorkspaceStatus.Published fin now }) e'.workspaces }),
    (r.modifyEntry info.id (fun e' => { e' with workspaces := updateFirst (fun x => x.uuid == uuid) (fun x => { x with status := WorkspaceStatus.Published fin now }) e'.workspaces })).modifyEntry info.id
      (fun e' => { e' with workspaces := updateFirst isPublishedB (fun x => { x with status := WorkspaceStatus.Finished fin }) e'.workspaces }),
    ?_, ?_, ?_⟩
  · simp only [Registry.publish_workspace_public, hgw, hstat, Registry.setWorkspace]
  · simp only [Registry.unpublish_workspace, hentry1, hfind1]
  · simp only [Registry.get_workspace, hentry2]
    rw [hfind2, hw_eq]

def c9_wit_reg : Registry :=
  { denoisers := [("1", { name := "Box", workspaces := [cw2] })], samplers := [] }

/-- Witness for the amended C9 at a concrete registry holding one finished
workspace and nothing published. -/
theorem c9_publish_unpublish_roundtrip_witness :
    ∃ r1 r2, c9_wit_reg.publish_workspace_public proj1 "w2" 5 = .ok r1 ∧
      r1.unpublish_workspace "1" = .ok ((.DENOISER, cw2.uuid), r2) ∧
      r2.get_workspace "1" "w2" = some cw2 :=
  c9_publish_unpublish_roundtrip c9_wit_reg proj1 "w2" 3 5 .DENOISER
    { name := "Box", workspaces := [cw2] } cw2 (by decide) (by decide) (by decide)
    (by decide)

/-! ## C6: duplicate short_name on register -/

/-- C6 (counterexample). In a registry where technique id 1 owns the name Box,
`register` called by the different id 2 with the same name and kind fails with
`InvalidInfoFile` — the registry error enum has no `NameAlreadyExists` variant
at all — and the same call with kind SAMPLER succeeds, leaving a denoiser and
a sampler that share the short name Box, so the name is not unique across all
techniques. -/
theorem c6_register_dup_name_counterexample :
    reg_with_box.register proj2 tech_box_denoiser = .error .InvalidInfoFile ∧
    (exceptOk (reg_with_box.register proj2 tech_box_sampler)).map
        (fun r => (r.denoisers.any (fun p => p.2.name == "Box"),
          r.samplers.any (fun p => p.2.name == "Box")))
      = some (true, true) := by
  exact ⟨by rfl, by decide⟩

/-- C6 (amended). `register` called with a valid versions list and a
`short_name` already carried by an entry of a different technique id of the
same kind fails with `InvalidInfoFile` and mutates no technique (the error
return leaves the registry untouched); the uniqueness check only inspects the
map of the technique's own kind. -/
theorem c6_register_dup_name_same_kind_rejected (r : Registry) (info : ProjectInfo)
    (tech : Technique) (p : String × Entry)
    (hv1 : tech.versions.length ≤ 1)
    (hv2 : tech.versions.length = 1 →
      (tech.versions.headD ⟨"", "", ""⟩).name = "default")
    (hfind : (r.kindMap tech.technique_type).find?
      (fun q => q.2.name == tech.short_name) = some p)
    (hid : p.1 ≠ info.id) :
    r.register info tech = .error .InvalidInfoFile := by
  have hg1 : ¬ (tech.versions.length > 1) := by omega
  have hg2 : (tech.versions.length == 1 &&
      ((tech.versions.headD ⟨"", "", ""⟩).name != "default")) = false := by
    cases hl : (tech.versions.length == 1) with
    | false => simp
    | true =>
      have hlen : tech.versions.length = 1 := by simpa using hl
      have hdef := hv2 hlen
      rw [Bool.true_and, hdef]
      rfl
  have hpf : (p.1 == info.id) = false := beq_eq_false_iff_ne.mpr hid
  simp only [Registry.register, if_neg hg1, hg2, Bool.false_eq_true, if_false, hfind,
    hpf]

/-- Witness for the amended C6: id 2 registering the denoiser name Box already
owned by id 1 is rejected with `InvalidInfoFile`. -/
theorem c6_register_dup_name_same_kind_rejected_witness :
    reg_with_box.register proj2 tech_box_denoiser = .error .InvalidInfoFile :=
  c6_register_dup_name_same_kind_rejected reg_with_box proj2 tech_box_denoiser
    ("1", box_entry) (by decide) (fun h => absurd h (by decide)) (by decide) (by decide)

/-! ## C7: the CanRun reply payload -/

/-- C7 (counterexample). The claim states the CanRun success payload is
exactly the string true or the string false, with false (not an error) at the
maximum. Evaluating the server handler refutes both parts: for a registered
technique with no unpublished workspace and max 3 the success payload is the
count string 0, which is neither true nor false; and with the count at the
maximum the server replies with the error `MaxWorkspacesExceeded` instead of a
false payload. -/
theorem c7_can_run_counterexample :
    server_can_run reg_with_box 3 proj1 = some (.ok "0") ∧
    "0" ≠ "true" ∧ "0" ≠ "false" ∧
    server_can_run reg_with_box 0 proj1 = some (.error .MaxWorkspacesExceeded) := by
  exact ⟨by rfl, by decide, by decide, by rfl⟩

/-- C7 (amended). For every CanRun request on a registered technique, the
server replies `Ok` with the technique's finished-unpublished workspace count
rendered as a decimal string while that count is below `max_num_workspaces`,
and replies with the error `MaxWorkspacesExceeded` once the count has reached
the maximum. -/
theorem c7_can_run_reply (r : Registry) (maxw : Nat) (info : ProjectInfo)
    (wps : List String) (h : r.get_unpublished_wps info.id = some wps) :
    (wps.length < maxw → server_can_run r maxw info = some (.ok (toString wps.length))) ∧
    (maxw ≤ wps.length →
      server_can_run r maxw info = some (.error .MaxWorkspacesExceeded)) := by
  constructor
  · intro hlt
    simp only [server_can_run, h]
    rw [if_neg (by omega)]
  · intro hge
    simp only [server_can_run, h]
    rw [if_pos (by omega)]

/-- Witness for the amended C7 at a concrete registry: zero unpublished
workspaces against a maximum of 3 yields the payload 0. -/
theorem c7_can_run_reply_witness :
    server_can_run reg_with_box 3 proj1 = some (.ok "0") :=
  (c7_can_run_reply reg_with_box 3 proj1 [] (by decide)).1 (by decide)

/-! ## C10: PublishPrivate on an existing private page directory -/

/-- C10. For every destination that already exists as a directory,
`copy_public_page` returns false with the filesystem untouched, and therefore
the `publish_private` handler, asked to stage the private page of a uuid whose
directory `public/{uuid}` already exists, replies `Err(Unspecified)` instead
of re-staging the page. -/
theorem c10_publish_private_rejects_existing_dir (reg : Registry) (fs : FileSystem)
    (tech : Technique) (proj : ProjectInfo) (uuid : String) (now : Nat)
    (exportOk permsOk : Bool) (ty : TechniqueType)
    (hty : reg.technique_type proj.id = some ty)
    (hdir : fs.isDir (public_page_path ++ "/" ++ uuid) = true) :
    copy_public_page fs (public_page_path ++ "/" ++ uuid) ty.as_str tech.short_name
      = (false, fs) ∧
    publish_private reg fs (some tech) proj uuid now exportOk permsOk
      = some (.error .Unspecified) := by
  have hcp : copy_public_page fs (public_page_path ++ "/" ++ uuid) ty.as_str
      tech.short_name = (false, fs) := by
    simp only [copy_public_page, hdir, if_true]
  refine ⟨hcp, ?_⟩
  simp only [publish_private, hty, hcp]
  rfl

def c10_fs : FileSystem := { dirs := ["public/u1"] }

/-- Witness for C10 at a concrete filesystem in which the private page
directory of uuid u1 already exists. -/
theorem c10_publish_private_rejects_existing_dir_witness :
    copy_public_page c10_fs (public_page_path ++ "/" ++ "u1")
      TechniqueType.DENOISER.as_str tech1.short_name = (false, c10_fs) ∧
    publish_private reg_with_box c10_fs (some tech1) proj1 "u1" 0 true true
      = some (.error .Unspecified) :=
  c10_publish_private_rejects_existing_dir reg_with_box c10_fs tech1 proj1 "u1" 0
    true true .DENOISER (by decide) (by decide)

/-! ## C4: workspace capacity -/

/-- C4 (counterexample). The claim says `add_workspace` rejects exactly when
the count of unpublished (status other than `Published`) workspaces has
reached MAX_WS, so that publishing frees capacity. Evaluating the code on a
reachable state refutes this: with MAX_WS = 2, after creating two workspaces
and publishing one of them, the unpublished count is 1 < 2 and yet
`add_workspace` still rejects with `MaxWorkspacesExceeded` — the guard counts
all workspaces, whatever their status, and publishing frees nothing. -/
theorem c4_add_workspace_rejects_below_unpublished_cap :
    (exceptOk c4_state).map (fun r =>
        (r.unpublishedCount "1", exceptErr (r.add_workspace 2 proj1 "u3" 9)))
      = some (1, some RegError.MaxWorkspacesExceeded) ∧ 1 < 2 := by
  exact ⟨by decide, by decide⟩

/-- Capacity invariant on the whole registry: every technique entry holds at
most `maxw` workspaces, of any status. -/
def CapInv (maxw : Nat) (r : Registry) : Prop :=
  ∀ q ∈ r.denoisers ++ r.samplers, (q : String × Entry).2.workspaces.length ≤ maxw

/-- One mutating registry operation, as observed through its `Ok` result. -/
inductive RegistryStep (maxw : Nat) : Registry → Registry → Prop
  | register {r r' : Registry} (info : ProjectInfo) (tech : Technique) :
      Registry.register r info tech = .ok r' → RegistryStep maxw r r'
  | add_workspace {r r' : Registry} (info : ProjectInfo) (uuid : String) (now : Nat)
      (u : String) :
      Registry.add_workspace r maxw info uuid now = .ok (u, r') → RegistryStep maxw r r'
  | publish_private {r r' : Registry} (info : ProjectInfo) (uuid : String) (now : Nat) :
      Registry.publish_workspace_private r info uuid now = .ok r' → RegistryStep maxw r r'
  | publish_public {r r' : Registry} (info : ProjectInfo) (uuid : String) (now : Nat) :
      Registry.publish_workspace_public r info uuid now = .ok r' → RegistryStep maxw r r'
  | unpublish {r r' : Registry} (id : String) (res : TechniqueType × String) :
      Registry.unpublish_workspace r id = .ok (res, r') → RegistryStep maxw r r'
  | remove {r r' : Registry} (id uuid : String) :
      Registry.remove_workspace r id uuid = .ok r' → RegistryStep maxw r r'

theorem get_entry_of_findPair_denoisers {r : Registry} {id : String}
    {x : String × Entry} (h : findPair r.denoisers id = some x) :
    r.get_entry id = some (.DENOISER, x.2) := by
  simp only [Registry.get_entry, h]

theorem get_entry_of_findPair_samplers {r : Registry} {id : String}
    {x : String × Entry} (hd : findPair r.denoisers id = none)
    (h : findPair r.samplers id = some x) :
    r.get_entry id = some (.SAMPLER, x.2) := by
  simp only [Registry.get_entry, hd, h]

theorem capInv_modifyEntry {maxw : Nat} {r : Registry} {id : String} {f : Entry → Entry}
    (hinv : CapInv maxw r)
    (hf : ∀ ty e, r.get_entry id = some (ty, e) → e.workspaces.length ≤ maxw →
      (f e).workspaces.length ≤ maxw) :
    CapInv maxw (r.modifyEntry id f) := by
  intro q hq
  by_cases hd : (findPair r.denoisers id).isSome
  · obtain ⟨x, hx⟩ := Option.isSome_iff_exists.mp hd
    simp only [Registry.modifyEntry, hd, if_true] at hq
    rcases List.mem_append.mp hq with hq1 | hq2
    · rcases mem_updateFirst hq1 with hold | ⟨y, hy, hqy⟩
      · exact hinv q (List.mem_append_left _ hold)
      · have hge : r.get_entry id = some (.DENOISER, y.2) :=
          get_entry_of_findPair_denoisers hy
        have hmem : y ∈ r.denoisers := List.mem_of_find?_eq_some hy
        have hbound := hinv y (List.mem_append_left _ hmem)
        subst hqy
        exact hf _ _ hge hbound
    · exact hinv q (List.mem_append_right _ hq2)
  · have hdn : findPair r.denoisers id = none := Option.not_isSome_iff_eq_none.mp hd
    simp only [Registry.modifyEntry, hd, Bool.false_eq_true, if_false] at hq
    rcases List.mem_append.mp hq with hq1 | hq2
    · exact hinv q (List.mem_append_left _ hq1)
    · rcases mem_updateFirst hq2 with hold | ⟨y, hy, hqy⟩
      · exact hinv q (List.mem_append_right _ hold)
      · have hge : r.get_entry id = some (.SAMPLER, y.2) :=
          get_entry_of_findPair_samplers hdn hy
        have hmem : y ∈ r.samplers := List.mem_of_find?_eq_some hy
        have hbound := hinv y (List.mem_append_right _ hmem)
        subst hqy
        exact hf _ _ hge hbound

theorem capInv_setKindMap_rename {maxw : Nat} {r : Registry} (ty : TechniqueType)
    (nm : String) (hinv : CapInv maxw r) :
    CapInv maxw (r.setKindMap ty (updateFirst (fun q => q.2.name == nm)
      (fun q => (q.1, { q.2 with name := nm })) (r.kindMap ty))) := by
  intro q hq
  cases ty with
  | DENOISER =>
    simp only [Registry.setKindMap, Registry.kindMap] at hq
    rcases List.mem_append.mp hq with hq1 | hq2
    · rcases mem_updateFirst hq1 with hold | ⟨y, hy, hqy⟩
      · exact hinv q (List.mem_append_left _ hold)
      · have hmem : y ∈ r.denoisers := List.mem_of_find?_eq_some hy
        have hbound := hinv y (List.mem_append_left _ hmem)
        subst hqy
        exact hbound
    · exact hinv q (List.mem_append_right _ hq2)
  | SAMPLER =>
    simp only [Registry.setKindMap, Registry.kindMap] at hq
    rcases List.mem_append.mp hq with hq1 | hq2
    · exact hinv q (List.mem_append_left _ hq1)
    · rcases mem_updateFirst hq2 with hold | ⟨y, hy, hqy⟩
      · exact hinv q (List.mem_append_right _ hold)
      · have hmem : y ∈ r.samplers := List.mem_of_find?_eq_some hy
        have hbound := hinv y (List.mem_append_right _ hmem)
        subst hqy
        exact hbound

theorem capInv_setKindMap_insert {maxw : Nat} {r : Registry} (ty : TechniqueType)
    (id nm : String) (hinv : CapInv maxw r) :
    CapInv maxw (r.setKindMap ty (insertEntry (r.kindMap ty) id
      { name := nm, workspaces := [] })) := by
  intro q hq
  cases ty with
  | DENOISER =>
    simp only [Registry.setKindMap, Registry.kindMap, insertEntry] at hq
    by_cases hs : (findPair r.denoisers id).isSome
    · rw [if_pos hs] at hq
      rcases List.mem_append.mp hq with hq1 | hq2
      · rcases mem_updateFirst hq1 with hold | ⟨y, hy, hqy⟩
        · exact hinv q (List.mem_append_left _ hold)
        · subst hqy
          exact Nat.zero_le maxw
      · exact hinv q (List.mem_append_right _ hq2)
    · rw [if_neg hs] at hq
      rcases List.mem_append.mp hq with hq1 | hq2
      · rcases List.mem_append.mp hq1 with hq1a | hq1b
        · exact hinv q (List.mem_append_left _ hq1a)
        · have hq1c := List.mem_singleton.mp hq1b
          subst hq1c
          exact Nat.zero_le maxw
      · exact hinv q (List.mem_append_right _ hq2)
  | SAMPLER =>
    simp only [Registry.setKindMap, Registry.kindMap, insertEntry] at hq
    by_cases hs : (findPair r.samplers id).isSome
    · rw [if_pos hs] at hq
      rcases List.mem_append.mp hq with hq1 | hq2
      · exact hinv q (List.mem_append_left _ hq1)
      · rcases mem_updateFirst hq2 with hold | ⟨y, hy, hqy⟩
        · exact hinv q (List.mem_append_right _ hold)
        · subst hqy
          exact Nat.zero_le maxw
    · rw [if_neg hs] at hq
      rcases List.mem_append.mp hq with hq1 | hq2
      · exact hinv q (List.mem_append_left _ hq1)
      · rcases List.mem_append.mp hq2 with hq2a | hq2b
        · exact hinv q (List.mem_append_right _ hq2a)
        · have hq2c := List.mem_singleton.mp hq2b
          subst hq2c
          exact Nat.zero_le maxw

theorem capInv_step {maxw : Nat} {r r' : Registry} (hs : RegistryStep maxw r r')
    (hinv : CapInv maxw r) : CapInv maxw r' := by
  cases hs with
  | register info tech h =>
    simp only [Registry.register] at h
    by_cases h1 : tech.versions.length > 1
    · rw [if_pos h1] at h
      exact Except.noConfusion h
    rw [if_neg h1] at h
    by_cases h2 : (tech.versions.length == 1 &&
        ((tech.versions.headD ⟨"", "", ""⟩).name != "default")) = true
    · rw [if_pos h2] at h
      exact Except.noConfusion h
    rw [if_neg h2] at h
    cases hfind : (r.kindMap tech.technique_type).find?
        (fun p => p.2.name == tech.short_name) with
    | some p =>
      rw [hfind] at h
      dsimp only at h
      by_cases hpid : (p.1 == info.id) = true
      · rw [if_pos hpid] at h
        rw [Except.ok.injEq] at h
        subst h
        exact capInv_setKindMap_rename _ _ hinv
      · rw [if_neg hpid] at h
        exact Except.noConfusion h
    | none =>
      rw [hfind] at h
      rw [Except.ok.injEq] at h
      subst h
      exact capInv_setKindMap_insert _ _ _ hinv
  | add_workspace info uuid now u h =>
    simp only [Registry.add_workspace] at h
    cases hge : r.get_entry info.id with
    | none =>
      rw [hge] at h
      exact Except.noConfusion h
    | some p =>
      rw [hge] at h
      dsimp only at h
      by_cases hcap : p.2.workspaces.length ≥ maxw
      · rw [if_pos hcap] at h
        exact Except.noConfusion h
      · rw [if_neg hcap] at h
        rw [Except.ok.injEq, Prod.mk.injEq] at h
        obtain ⟨-, h⟩ := h
        subst h
        refine capInv_modifyEntry hinv ?_
        intro ty e hge2 hbound
        rw [hge, Option.some.injEq] at hge2
        have h2 : p.2 = e := by rw [hge2]
        have hlt : e.workspaces.length < maxw := by
          rw [← h2]
          omega
        simp only [List.length_append, List.length_cons, List.length_nil]
        omega
  | publish_private info uuid now h =>
    simp only [Registry.publish_workspace_private] at h
    cases hgw : r.get_workspace info.id uuid with
    | none =>
      rw [hgw] at h
      exact Except.noConfusion h
    | some w =>
      rw [hgw] at h
      dsimp only at h
      rw [Except.ok.injEq] at h
      subst h
      simp only [Registry.setWorkspace]
      refine capInv_modifyEntry hinv ?_
      intro ty e _ hbound
      simpa only [length_updateFirst] using hbound
  | publish_public info uuid now h =>
    simp only [Registry.publish_workspace_public] at h
    cases hgw : r.get_workspace info.id uuid with
    | none =>
      rw [hgw] at h
      exact Except.noConfusion h
    | some w =>
      rw [hgw] at h
      dsimp only at h
      cases hst : w.status with
      | New =>
        rw [hst] at h
        exact Except.noConfusion h
      | Finished fin =>
        rw [hst] at h
        dsimp only at h
        rw [Except.ok.injEq] at h
        subst h
        simp only [Registry.setWorkspace]
        refine capInv_modifyEntry hinv ?_
        intro ty e _ hbound
        simpa only [length_updateFirst] using hbound
      | Published fin pub =>
        rw [hst] at h
        exact Except.noConfusion h
  | unpublish id res h =>
    simp only [Registry.unpublish_workspace] at h
    cases hge : r.get_entry id with
    | none =>
      rw [hge] at h
      exact Except.noConfusion h
    | some p =>
      rw [hge] at h
      dsimp only at h
      cases hfp : p.2.workspaces.find? isPublishedB with
      | none =>
        rw [hfp] at h
        exact Except.noConfusion h
      | some w =>
        rw [hfp] at h
        dsimp only at h
        cases hst : w.status with
        | New =>
          rw [hst] at h
          exact Except.noConfusion h
        | Finished fin =>
          rw [hst] at h
          exact Except.noConfusion h
        | Published fin pub =>
          rw [hst] at h
          dsimp only at h
          rw [Except.ok.injEq, Prod.mk.injEq] at h
          obtain ⟨-, h⟩ := h
          subst h
          refine capInv_modifyEntry hinv ?_
          intro ty e _ hbound
          simpa only [length_updateFirst] using hbound
  | remove id uuid h =>
    simp only [Registry.remove_workspace] at h
    cases hge : r.get_entry id with
    | none =>
      rw [hge] at h
      exact Except.noConfusion h
    | some p =>
      rw [hge] at h
      dsimp only at h
      cases hfp : p.2.workspaces.find? (fun w => w.uuid == uuid) with
      | none =>
        rw [hfp] at h
        exact Except.noConfusion h
      | some w =>
        rw [hfp] at h
        dsimp only at h
        rw [Except.ok.injEq] at h
        subst h
        refine capInv_modifyEntry hinv ?_
        intro ty e _ hbound
        exact le_trans (length_eraseFirst_le _ _) hbound

/-- C4 (amended). `add_workspace` counts all workspaces of the technique,
published ones included: it rejects with `MaxWorkspacesExceeded` exactly when
that total has reached `max_workspaces`, and otherwise appends one workspace;
consequently every state reachable through the registry operations keeps every
technique at `count(all workspaces) ≤ MAX_WS` — publishing a workspace does
not free capacity (only removing one does). -/
theorem c4_add_workspace_total_capacity :
    (∀ (r : Registry) (maxw : Nat) (info : ProjectInfo) (uuid : String) (now : Nat)
        (ty : TechniqueType) (e : Entry), r.get_entry info.id = some (ty, e) →
        ((maxw ≤ e.workspaces.length →
            r.add_workspace maxw info uuid now = .error .MaxWorkspacesExceeded) ∧
         (e.workspaces.length < maxw →
            ∃ r', r.add_workspace maxw info uuid now = .ok (uuid, r') ∧
              ∃ e', r'.get_entry info.id = some (ty, e') ∧
                e'.workspaces.length = e.workspaces.length + 1))) ∧
    (∀ (maxw : Nat) (r r' : Registry), RegistryStep maxw r r' →
      CapInv maxw r → CapInv maxw r') := by
  constructor
  · intro r maxw info uuid now ty e hentry
    constructor
    · intro hge
      simp only [Registry.add_workspace, hentry]
      rw [if_pos (by omega : e.workspaces.length ≥ maxw)]
    · intro hlt
      simp only [Registry.add_workspace, hentry]
      rw [if_neg (by omega : ¬ e.workspaces.length ≥ maxw)]
      refine ⟨_, rfl, ?_⟩
      refine ⟨_, get_entry_modifyEntry_self _ hentry, ?_⟩
      simp only [List.length_append, List.length_cons, List.length_nil]
  · intro maxw r r' hstep hinv
    exact capInv_step hstep hinv

/-- Witness for the amended C4: a technique with no workspace and MAX_WS = 3
admits a new workspace, reaching exactly one workspace. -/
theorem c4_add_workspace_total_capacity_witness :
    ∃ r', Registry.add_workspace reg_with_box 3 proj1 "w9" 0 = .ok ("w9", r') ∧
      ∃ e', r'.get_entry proj1.id = some (.DENOISER, e') ∧
        e'.workspaces.length = box_entry.workspaces.length + 1 :=
  ((c4_add_workspace_total_capacity.1 reg_with_box 3 proj1 "w9" 0 .DENOISER
    box_entry (by decide)).2 (by decide))

end Fbksd
